import Mathlib

/-!
Shallow embedding of the conversational agent in `main.py`:
a `Conversation` holding a bounded message history, non-streaming and
streaming sends to a model backend, and the agent control loop that
executes commands, composes feedback and merges operator interjections.

The backend (ollama) and the shell are external collaborators; they are
modelled as oracle functions passed in as arguments.
-/

/-- One dialogue message, mirroring the Python dict
`{'role': ..., 'content': ...}` appended in `Conversation.send`,
`_get_response` and `_stream_response`.  Roles used are "user" and
"assistant". -/
structure Turn where
  role : String
  content : String
deriving DecidableEq, Repr

/-- The conversation state of `Conversation.__init__`: a model name, the
`max_memory` bound (-1 meaning unbounded) and the `messages` list. -/
structure Conversation where
  model : String
  max_memory : Int
  messages : List Turn
deriving DecidableEq, Repr

/-- `Conversation._trim_history`: if `max_memory > 0` and
`len(messages) > max_memory`, drop `excess = len - max_memory` messages
from the front (`self.messages = self.messages[excess:]`); otherwise do
nothing. -/
def Conversation.trim_history (c : Conversation) : Conversation :=
  if 0 < c.max_memory ∧ c.max_memory < (c.messages.length : Int) then
    { c with messages := c.messages.drop (c.messages.length - c.max_memory.toNat) }
  else
    c

/-- `Conversation.clear`: reset the history. -/
def Conversation.clear (c : Conversation) : Conversation :=
  { c with messages := [] }

/-- Result of a non-streaming `send` call.  `conv` is the conversation
state after the call, `result` is the returned reply or the propagated
backend exception, and `request` is a ghost field recording the
`messages` list that was passed to `ollama.chat`. -/
structure SendResult where
  conv : Conversation
  result : Except String String
  request : List Turn
deriving Repr

/-- `Conversation.send(message, stream=False)` followed by
`_get_response`: append the user turn, contact the backend with the full
history, and on success append the assistant turn and trim.  On a backend
exception the user turn remains appended and the exception propagates. -/
def Conversation.send (c : Conversation) (message : String)
    (backend : List Turn → Except String String) : SendResult :=
  let c1 : Conversation := { c with messages := c.messages ++ [⟨"user", message⟩] }
  match backend c1.messages with
  | .error e => ⟨c1, .error e, c1.messages⟩
  | .ok reply =>
      let c2 : Conversation := { c1 with messages := c1.messages ++ [⟨"assistant", reply⟩] }
      ⟨c2.trim_history, .ok reply, c1.messages⟩

/-- Concatenation of a fragment list, the value `full_response` holds
after the streaming loop finishes. -/
def concatFrags : List String → String
  | [] => ""
  | f :: rest => f ++ concatFrags rest

/-- Phase of the generator returned by `send(message, stream=True)`:
`created` before the body has run (no backend contact yet), `running`
after `ollama.chat(..., stream=True)` with the fragments not yet yielded
and the `full_response` accumulator, `finished` after the deferred
append-and-trim, `failed` after a backend exception. -/
inductive GenPhase
  | created
  | running (remaining : List String) (acc : String)
  | finished
  | failed
deriving DecidableEq, Repr

/-- A streaming `send` call in flight: the conversation it mutates plus
ghost fields recording the request sent to the backend (if contacted),
the fragments yielded so far, and how many times `_trim_history` ran. -/
structure StreamSession where
  conv : Conversation
  phase : GenPhase
  request : Option (List Turn)
  yielded : List String
  trimCount : Nat
deriving DecidableEq, Repr

/-- `Conversation.send(message, stream=True)`: the user turn is appended
eagerly inside `send`, then `_stream_response()` is returned as a
generator whose body has not started — the backend has not been
contacted. -/
def Conversation.send_stream (c : Conversation) (message : String) : StreamSession :=
  { conv := { c with messages := c.messages ++ [⟨"user", message⟩] },
    phase := .created,
    request := none,
    yielded := [],
    trimCount := 0 }

/-- Stream exhaustion inside `_stream_response`: append `full_response`
as a single assistant turn and trim; the final `next()` raises
StopIteration (`Except.ok none`). -/
def streamFinish (s : StreamSession) (acc : String) :
    StreamSession × Except String (Option String) :=
  let c2 : Conversation :=
    { s.conv with messages := s.conv.messages ++ [⟨"assistant", acc⟩] }
  ({ s with conv := c2.trim_history, phase := .finished, trimCount := s.trimCount + 1 },
   .ok none)

/-- One loop iteration inside `_stream_response`: accumulate the fragment
into `full_response` and yield it. -/
def streamYield (s : StreamSession) (frag : String) (rest : List String) (acc : String) :
    StreamSession × Except String (Option String) :=
  ({ s with phase := .running rest (acc ++ frag), yielded := s.yielded ++ [frag] },
   .ok (some frag))

/-- One `next()` call on the generator.  On the first call the body runs:
`ollama.chat` is issued with the current history (recorded in `request`);
a backend exception propagates and no history mutation happens.
Fragments are yielded one by one; after the last fragment the following
`next()` performs the deferred append-and-trim and stops. -/
def streamNext (backend : List Turn → Except String (List String))
    (s : StreamSession) : StreamSession × Except String (Option String) :=
  match s.phase with
  | .created =>
      match backend s.conv.messages with
      | .error e =>
          ({ s with phase := .failed, request := some s.conv.messages }, .error e)
      | .ok chunks =>
          match chunks with
          | [] => streamFinish { s with request := some s.conv.messages } ""
          | f :: rest => streamYield { s with request := some s.conv.messages } f rest ""
  | .running rem acc =>
      match rem with
      | [] => streamFinish s acc
      | f :: rest => streamYield s f rest acc
  | .finished => (s, .ok none)
  | .failed => (s, .ok none)

/-- Iterate `next()` on the generator a given number of times. -/
def streamSteps (backend : List Turn → Except String (List String))
    (s : StreamSession) : Nat → StreamSession
  | 0 => s
  | n + 1 => streamSteps backend (streamNext backend s).1 n

/-- The fields of `subprocess.run(...)`'s completed result that the loop
reads: `returncode`, `stdout`, `stderr` (captured as text). -/
structure CommandResult where
  exit_code : Int
  stdout : String
  stderr : String
deriving DecidableEq, Repr

/-- Outcome of one shell execution as seen by the `__main__` loop:
normal completion, `subprocess.TimeoutExpired`, or any other host
exception (caught by the generic handler, carrying `str(e)`). -/
inductive ExecOutcome
  | completed (r : CommandResult)
  | timedOut
  | hostError (e : String)
deriving DecidableEq, Repr

/-- Feedback built from command output in `__main__`:
`feedback = shell_output.stderr if shell_output.stderr else shell_output.stdout`
(Python string truthiness = non-empty). -/
def build_feedback (r : CommandResult) : String :=
  if r.stderr ≠ "" then r.stderr else r.stdout

/-- The drain loop `while not input_queue.empty(): get_nowait()` run by
the single consumer: it takes every queued message, in arrival order,
and leaves the queue empty. -/
def drain_queue (q : List String) : List String × List String :=
  (q, [])

/-- Merging drained operator messages into the feedback:
`feedback = f"{feedback}\n\nUser says: {chr(10).join(user_messages)}"`
when any messages were drained, otherwise the feedback is unchanged. -/
def compose_feedback (fb : String) (msgs : List String) : String :=
  if msgs ≠ [] then fb ++ "\n\nUser says: " ++ String.intercalate "\n" msgs
  else fb

/-- The result of one cycle of the `while True` loop: the conversation
after the cycle's `send`, the next command (or the propagated backend
error), the interjection queue after the cycle, and a ghost field
recording the feedback string passed to `conv.send`. -/
structure CycleOut where
  conv : Conversation
  next : Except String String
  queue : List String
  sent : String
deriving Repr

/-- One cycle of the `__main__` loop, given the outcome of executing the
current command.  Normal completion: build feedback from the streams,
drain the interjection queue, merge, send.  `TimeoutExpired`: the
exception aborts the try block before the drain, and the handler sends
the fixed notice "Command timed out.".  Other host errors: the handler
sends `str(e)`. -/
def loop_cycle (backend : List Turn → Except String String)
    (conv : Conversation) (outcome : ExecOutcome) (q : List String) : CycleOut :=
  match outcome with
  | .completed r =>
      let fb0 := build_feedback r
      let drained := drain_queue q
      let fb := compose_feedback fb0 drained.1
      let out := conv.send fb backend
      ⟨out.conv, out.result, drained.2, fb⟩
  | .timedOut =>
      let out := conv.send "Command timed out." backend
      ⟨out.conv, out.result, q, "Command timed out."⟩
  | .hostError e =>
      let out := conv.send e backend
      ⟨out.conv, out.result, q, e⟩

/-- Python `str.strip()`: remove leading and trailing whitespace. -/
def pyStrip (s : String) : String :=
  String.mk (((s.data.dropWhile Char.isWhitespace).reverse.dropWhile
    Char.isWhitespace).reverse)

/-- One line handled by `input_thread`: `user_input = input()`, then
`if user_input.strip(): input_queue.put(user_input)` — the raw line is
pushed whenever its stripped form is non-empty, otherwise nothing is
pushed. -/
def input_line_push (line : String) : Option String :=
  if pyStrip line ≠ "" then some line else none

/-- Whether `sub` occurs as a leading block of `l` (character lists). -/
def leadMatch : List Char → List Char → Bool
  | [], _ => true
  | _ :: _, [] => false
  | a :: s, b :: t => (a == b) && leadMatch s t

/-- Whether `sub` occurs contiguously anywhere in `l`. -/
def hasSub (sub : List Char) : List Char → Bool
  | [] => leadMatch sub []
  | c :: rest => leadMatch sub (c :: rest) || hasSub sub rest

/-- Substring containment on strings, used to state what a composed
feedback message does or does not mention. -/
def strContains (hay sub : String) : Bool :=
  hasSub sub.data hay.data

/-! ### Lemmas about eviction -/

lemma trim_history_suffix (c : Conversation) :
    c.trim_history.messages <:+ c.messages := by
  unfold Conversation.trim_history
  split
  · exact List.drop_suffix _ _
  · exact List.suffix_rfl

lemma trim_history_length_le (c : Conversation) (h : 0 < c.max_memory) :
    (c.trim_history.messages.length : Int) ≤ c.max_memory := by
  unfold Conversation.trim_history
  split
  next hc =>
    simp only [List.length_drop]
    omega
  next hc =>
    simp only [not_and, not_lt] at hc
    exact hc h

lemma trim_history_drop (c : Conversation)
    (h1 : 0 < c.max_memory) (h2 : c.max_memory < (c.messages.length : Int)) :
    c.trim_history.messages =
      c.messages.drop (c.messages.length - c.max_memory.toNat) := by
  simp [Conversation.trim_history, h1, h2]

lemma trim_history_noop (c : Conversation)
    (h : c.max_memory ≤ 0 ∨ (c.messages.length : Int) ≤ c.max_memory) :
    c.trim_history = c := by
  have h' : ¬(0 < c.max_memory ∧ c.max_memory < (c.messages.length : Int)) := by
    rintro ⟨h1, h2⟩
    rcases h with h | h <;> omega
  simp [Conversation.trim_history, h']

/-- Claim C4: `trim()` removes exactly `len(history) - max_turns` turns
from the front when `max_turns > 0` and `len(history) > max_turns`
(stated as: the result is a suffix of the history whose length is
exactly `max_turns`), and is a no-op in every other case, including
whenever `max_turns <= 0`. -/
theorem trim_removes_excess_else_noop (c : Conversation) :
    (0 < c.max_memory → c.max_memory < (c.messages.length : Int) →
      c.trim_history.messages <:+ c.messages ∧
      (c.trim_history.messages.length : Int) = c.max_memory)
  ∧ (c.max_memory ≤ 0 ∨ (c.messages.length : Int) ≤ c.max_memory →
      c.trim_history = c) := by
  constructor
  · intro h1 h2
    refine ⟨trim_history_suffix c, ?_⟩
    rw [trim_history_drop c h1 h2]
    simp only [List.length_drop]
    omega
  · exact trim_history_noop c

/-- Concrete conversation used by witnesses: bound 2, three messages. -/
def convFull : Conversation :=
  ⟨"llama3.2", 2, [⟨"user", "a"⟩, ⟨"assistant", "b"⟩, ⟨"user", "c"⟩]⟩

theorem trim_removes_excess_else_noop_witness :
    (0 < convFull.max_memory ∧ convFull.max_memory < (convFull.messages.length : Int)) ∧
    convFull.trim_history.messages <:+ convFull.messages ∧
    (convFull.trim_history.messages.length : Int) = convFull.max_memory :=
  ⟨by decide, (trim_removes_excess_else_noop convFull).1 (by decide) (by decide)⟩

/-- Claim C1: with `max_turns = N > 0`, after a completed user+assistant
exchange (a `send` whose backend returns a reply) the history length is
at most `N`, and the resulting history is a suffix of the old history
extended by the new user and assistant turns — so eviction removed only
the oldest turns from the front and the surviving turns keep their
relative order. -/
theorem history_bounded_after_exchange (c : Conversation) (msg reply : String)
    (h : 0 < c.max_memory) :
    ((c.send msg (fun _ => .ok reply)).conv.messages.length : Int) ≤ c.max_memory
  ∧ (c.send msg (fun _ => .ok reply)).conv.messages
      <:+ c.messages ++ [⟨"user", msg⟩, ⟨"assistant", reply⟩] := by
  have hsend : (c.send msg (fun _ => .ok reply)).conv
      = Conversation.trim_history
          { c with messages := c.messages ++ [⟨"user", msg⟩, ⟨"assistant", reply⟩] } := by
    simp [Conversation.send]
  rw [hsend]
  exact ⟨trim_history_length_le _ h, trim_history_suffix _⟩

theorem history_bounded_after_exchange_witness :
    0 < convFull.max_memory ∧
    (((convFull.send "hi" (fun _ => .ok "yo")).conv.messages.length : Int) ≤ convFull.max_memory
    ∧ (convFull.send "hi" (fun _ => .ok "yo")).conv.messages
        <:+ convFull.messages ++ [⟨"user", "hi"⟩, ⟨"assistant", "yo"⟩]) :=
  ⟨by decide, history_bounded_after_exchange convFull "hi" "yo" (by decide)⟩

/-! ### Lemmas about the streaming generator -/

lemma streamSteps_zero (backend : List Turn → Except String (List String))
    (s : StreamSession) : streamSteps backend s 0 = s := rfl

lemma streamSteps_succ (backend : List Turn → Except String (List String))
    (s : StreamSession) (n : Nat) :
    streamSteps backend s (n + 1) = streamSteps backend (streamNext backend s).1 n := rfl

lemma streamSteps_add (backend : List Turn → Except String (List String))
    (s : StreamSession) (m n : Nat) :
    streamSteps backend s (m + n) = streamSteps backend (streamSteps backend s m) n := by
  induction m generalizing s with
  | zero => rw [Nat.zero_add, streamSteps_zero]
  | succ k ih =>
      have h1 : k + 1 + n = (k + n) + 1 := by omega
      rw [h1, streamSteps_succ, streamSteps_succ, ih]

lemma streamSteps_running (backend : List Turn → Except String (List String))
    (conv : Conversation) (req : Option (List Turn)) (t : Nat) :
    ∀ (j : Nat) (rem : List String) (acc : String) (y : List String),
      j ≤ rem.length →
      streamSteps backend ⟨conv, .running rem acc, req, y, t⟩ j =
        ⟨conv, .running (rem.drop j) (acc ++ concatFrags (rem.take j)), req,
         y ++ rem.take j, t⟩ := by
  intro j
  induction j with
  | zero =>
      intro rem acc y _
      simp [streamSteps_zero, concatFrags]
  | succ k ih =>
      intro rem acc y hj
      cases rem with
      | nil => simp at hj
      | cons f rest =>
          rw [streamSteps_succ]
          have hnext : (streamNext backend ⟨conv, .running (f :: rest) acc, req, y, t⟩).1
              = ⟨conv, .running rest (acc ++ f), req, y ++ [f], t⟩ := by
            simp [streamNext, streamYield]
          rw [hnext, ih rest (acc ++ f) (y ++ [f]) (by simpa using hj)]
          simp [concatFrags, String.append_assoc]

lemma streamSteps_one (backend : List Turn → Except String (List String))
    (s : StreamSession) : streamSteps backend s 1 = (streamNext backend s).1 := rfl

lemma streamNext_created_cons (c : Conversation) (msg f : String) (rest : List String) :
    (streamNext (fun _ => .ok (f :: rest)) (c.send_stream msg)).1
      = ⟨{ c with messages := c.messages ++ [⟨"user", msg⟩] },
         .running rest f, some (c.messages ++ [⟨"user", msg⟩]), [f], 0⟩ := by
  simp [streamNext, Conversation.send_stream, streamYield, String.empty_append]

lemma streamRun_eq (c : Conversation) (msg : String) (chunks : List String) :
    streamSteps (fun _ => .ok chunks) (c.send_stream msg) (chunks.length + 1) =
      ⟨Conversation.trim_history
          { c with messages :=
              c.messages ++ [⟨"user", msg⟩, ⟨"assistant", concatFrags chunks⟩] },
        .finished, some (c.messages ++ [⟨"user", msg⟩]), chunks, 1⟩ := by
  cases chunks with
  | nil =>
      rw [streamSteps_succ]
      simp [streamNext, Conversation.send_stream, streamFinish, concatFrags,
        streamSteps_zero, List.append_assoc]
  | cons f rest =>
      rw [streamSteps_succ, streamNext_created_cons, List.length_cons, streamSteps_add]
      rw [streamSteps_running _ _ _ _ rest.length rest f [f] (Nat.le_refl _)]
      rw [List.drop_length, List.take_length, streamSteps_one]
      simp [streamNext, streamFinish, concatFrags, List.append_assoc]

lemma streamSteps_mid (c : Conversation) (msg : String) (chunks : List String)
    (j : Nat) (hj : j ≤ chunks.length) :
    streamSteps (fun _ => .ok chunks) (c.send_stream msg) j =
      ⟨{ c with messages := c.messages ++ [⟨"user", msg⟩] },
        (if j = 0 then GenPhase.created
         else .running (chunks.drop j) (concatFrags (chunks.take j))),
        (if j = 0 then none else some (c.messages ++ [⟨"user", msg⟩])),
        chunks.take j, 0⟩ := by
  cases j with
  | zero => simp [streamSteps_zero, Conversation.send_stream]
  | succ k =>
      cases chunks with
      | nil => simp at hj
      | cons f rest =>
          rw [streamSteps_succ, streamNext_created_cons,
            streamSteps_running _ _ _ _ k rest f [f] (by simpa using hj)]
          simp [concatFrags]

/-! ### Claim theorems -/

/-- Claim C2: every `send(message)` appends exactly one user turn with
content `message`, and the append happens before the backend is
contacted — the request the backend receives is the old history extended
by that user turn, which is its last entry; on success exactly one
assistant turn is appended, so the history before eviction is exactly the
old history plus one user and one assistant turn, in both non-streaming
and streaming mode. -/
theorem send_appends_one_user_one_assistant (c : Conversation)
    (msg reply : String) (backend : List Turn → Except String String)
    (chunks : List String) :
    (c.send msg backend).request = c.messages ++ [⟨"user", msg⟩]
  ∧ (c.send msg backend).request.getLast? = some ⟨"user", msg⟩
  ∧ (c.send msg (fun _ => .ok reply)).conv
      = Conversation.trim_history
          { c with messages := c.messages ++ [⟨"user", msg⟩, ⟨"assistant", reply⟩] }
  ∧ (c.send_stream msg).conv.messages = c.messages ++ [⟨"user", msg⟩]
  ∧ (streamSteps (fun _ => .ok chunks) (c.send_stream msg) (chunks.length + 1)).conv
      = Conversation.trim_history
          { c with messages :=
              c.messages ++ [⟨"user", msg⟩, ⟨"assistant", concatFrags chunks⟩] } := by
  have hreq : (c.send msg backend).request = c.messages ++ [⟨"user", msg⟩] := by
    cases h : backend (c.messages ++ [⟨"user", msg⟩]) with
    | error e => simp [Conversation.send, h]
    | ok r => simp [Conversation.send, h]
  refine ⟨hreq, ?_, ?_, rfl, ?_⟩
  · rw [hreq]
    exact List.getLast?_concat _
  · simp [Conversation.send]
  · rw [streamRun_eq]

/-- Claim C3: running the streaming generator to exhaustion yields
exactly the backend fragments in order; their concatenation is the
content of the single assistant turn appended at completion, with
exactly one trim; at every iteration count `j` before exhaustion the
history still holds only the user turn and trim has not run — history is
never mutated mid-stream. -/
theorem stream_concat_deferred_append (c : Conversation) (msg : String)
    (chunks : List String) (j : Nat) (hj : j ≤ chunks.length) :
    (streamSteps (fun _ => .ok chunks) (c.send_stream msg) (chunks.length + 1)).yielded
      = chunks
  ∧ (streamSteps (fun _ => .ok chunks) (c.send_stream msg) (chunks.length + 1)).conv
      = Conversation.trim_history
          { c with messages :=
              c.messages ++ [⟨"user", msg⟩, ⟨"assistant", concatFrags chunks⟩] }
  ∧ (streamSteps (fun _ => .ok chunks) (c.send_stream msg) (chunks.length + 1)).trimCount
      = 1
  ∧ (streamSteps (fun _ => .ok chunks) (c.send_stream msg) j).conv.messages
      = c.messages ++ [⟨"user", msg⟩]
  ∧ (streamSteps (fun _ => .ok chunks) (c.send_stream msg) j).trimCount = 0
  ∧ (streamSteps (fun _ => .ok chunks) (c.send_stream msg) j).yielded = chunks.take j := by
  rw [streamRun_eq, streamSteps_mid c msg chunks j hj]
  exact ⟨rfl, rfl, rfl, rfl, rfl, rfl⟩

/-- Default conversation of `Conversation()`. -/
def conv0 : Conversation := ⟨"llama3.2", -1, []⟩

theorem stream_concat_deferred_append_witness :
    1 ≤ (["Hel", "lo"] : List String).length ∧
    ((streamSteps (fun _ => .ok ["Hel", "lo"]) (conv0.send_stream "hi") 3).yielded
        = ["Hel", "lo"]
    ∧ (streamSteps (fun _ => .ok ["Hel", "lo"]) (conv0.send_stream "hi") 3).conv
        = Conversation.trim_history
            { conv0 with messages :=
                conv0.messages ++ [⟨"user", "hi"⟩, ⟨"assistant", concatFrags ["Hel", "lo"]⟩] }
    ∧ (streamSteps (fun _ => .ok ["Hel", "lo"]) (conv0.send_stream "hi") 3).trimCount = 1
    ∧ (streamSteps (fun _ => .ok ["Hel", "lo"]) (conv0.send_stream "hi") 1).conv.messages
        = conv0.messages ++ [⟨"user", "hi"⟩]
    ∧ (streamSteps (fun _ => .ok ["Hel", "lo"]) (conv0.send_stream "hi") 1).trimCount = 0
    ∧ (streamSteps (fun _ => .ok ["Hel", "lo"]) (conv0.send_stream "hi") 1).yielded
        = (["Hel", "lo"] : List String).take 1) :=
  ⟨by decide, stream_concat_deferred_append conv0 "hi" ["Hel", "lo"] 1 (by decide)⟩

/-- Claim C10: in streaming mode the user turn is appended eagerly by the
`send(message, stream=True)` call itself, while the backend has not yet
been contacted; the backend request is issued at the first iteration of
the returned generator; and after any number of iterations short of
exhaustion the history holds the new user turn with no matching
assistant turn and trim has never been invoked. -/
theorem stream_eager_user_lazy_request (c : Conversation) (msg : String)
    (chunks : List String) (j : Nat) (hj : j ≤ chunks.length) :
    (c.send_stream msg).conv.messages = c.messages ++ [⟨"user", msg⟩]
  ∧ (c.send_stream msg).request = none
  ∧ (streamSteps (fun _ => .ok chunks) (c.send_stream msg) j).request
      = (if j = 0 then none else some (c.messages ++ [⟨"user", msg⟩]))
  ∧ (streamSteps (fun _ => .ok chunks) (c.send_stream msg) j).conv.messages
      = c.messages ++ [⟨"user", msg⟩]
  ∧ (streamSteps (fun _ => .ok chunks) (c.send_stream msg) j).trimCount = 0 := by
  rw [streamSteps_mid c msg chunks j hj]
  exact ⟨rfl, rfl, rfl, rfl, rfl⟩

theorem stream_eager_user_lazy_request_witness :
    2 ≤ (["a", "b", "c"] : List String).length ∧
    ((conv0.send_stream "go").conv.messages = conv0.messages ++ [⟨"user", "go"⟩]
    ∧ (conv0.send_stream "go").request = none
    ∧ (streamSteps (fun _ => .ok ["a", "b", "c"]) (conv0.send_stream "go") 2).request
        = (if 2 = 0 then none else some (conv0.messages ++ [⟨"user", "go"⟩]))
    ∧ (streamSteps (fun _ => .ok ["a", "b", "c"]) (conv0.send_stream "go") 2).conv.messages
        = conv0.messages ++ [⟨"user", "go"⟩]
    ∧ (streamSteps (fun _ => .ok ["a", "b", "c"]) (conv0.send_stream "go") 2).trimCount = 0) :=
  ⟨by decide, stream_eager_user_lazy_request conv0 "go" ["a", "b", "c"] 2 (by decide)⟩

/-- Claim C6: a backend failure propagates out of the `send` call to its
caller, and zero assistant turns are appended: in non-streaming mode the
call returns the error with the history holding only the extra user
turn; in streaming mode, when the request fails before producing any
fragment, the first generator step propagates the error, the history
likewise gains no assistant turn, and trim never ran. -/
theorem backend_failure_propagates (c : Conversation) (msg e : String) :
    (c.send msg (fun _ => .error e)).result = .error e
  ∧ (c.send msg (fun _ => .error e)).conv.messages = c.messages ++ [⟨"user", msg⟩]
  ∧ (streamNext (fun _ => .error e) (c.send_stream msg)).2 = .error e
  ∧ (streamNext (fun _ => .error e) (c.send_stream msg)).1.conv.messages
      = c.messages ++ [⟨"user", msg⟩]
  ∧ (streamNext (fun _ => .error e) (c.send_stream msg)).1.trimCount = 0 :=
  ⟨rfl, rfl, rfl, rfl, rfl⟩

/-- Claim C5: when the command execution times out, the cycle raises
nothing: the `TimeoutExpired` handler sends the fixed notice
"Command timed out." as the next feedback message, and the loop obtains
the next command (the backend reply) for the following cycle, the
interjection queue left untouched by the aborted try block. -/
theorem timeout_recovers_with_notice (conv : Conversation) (q : List String)
    (reply : String) :
    (loop_cycle (fun _ => .ok reply) conv .timedOut q).sent = "Command timed out."
  ∧ (loop_cycle (fun _ => .ok reply) conv .timedOut q).next = .ok reply
  ∧ (loop_cycle (fun _ => .ok reply) conv .timedOut q).queue = q
  ∧ (loop_cycle (fun _ => .ok reply) conv .timedOut q).conv
      = Conversation.trim_history
          { conv with messages :=
              conv.messages ++ [⟨"user", "Command timed out."⟩, ⟨"assistant", reply⟩] } := by
  refine ⟨rfl, rfl, rfl, ?_⟩
  simp [loop_cycle, Conversation.send]

/-- Claim C8: one cycle drains the entire interjection queue, leaving it
empty (an empty queue contributes zero messages); every drained message
appears in the sent feedback in arrival order, newline-separated,
appended after the command output; and with no queued messages the sent
feedback is exactly the command output, unchanged. -/
theorem interjections_drained_into_feedback (conv : Conversation)
    (r : CommandResult) (q : List String) (reply : String) :
    (loop_cycle (fun _ => .ok reply) conv (.completed r) q).queue = []
  ∧ (q = [] →
      (loop_cycle (fun _ => .ok reply) conv (.completed r) q).sent = build_feedback r)
  ∧ (q ≠ [] →
      (loop_cycle (fun _ => .ok reply) conv (.completed r) q).sent
        = build_feedback r ++ "\n\nUser says: " ++ String.intercalate "\n" q) := by
  refine ⟨rfl, ?_, ?_⟩
  · intro h
    subst h
    simp [loop_cycle, drain_queue, compose_feedback]
  · intro h
    simp [loop_cycle, drain_queue, compose_feedback, h]

/-- Command result used by witnesses: exit 0, stdout only. -/
def resOut : CommandResult := ⟨0, "out", ""⟩

theorem interjections_drained_into_feedback_witness :
    (["ping", "stop"] : List String) ≠ [] ∧
    (loop_cycle (fun _ => .ok "ok") conv0 (.completed resOut) ["ping", "stop"]).sent
      = build_feedback resOut ++ "\n\nUser says: " ++ String.intercalate "\n" ["ping", "stop"] :=
  ⟨by decide,
   (interjections_drained_into_feedback conv0 resOut ["ping", "stop"] "ok").2.2 (by decide)⟩

/-- Claim C7 counterexample: for the normal completion with exit code 2,
stdout "hello" and empty stderr, the composed feedback is "hello": it
does not contain the exit code (decimal rendering "2") at all, under
either stream-inclusion policy. -/
theorem feedback_lacks_exit_code :
    build_feedback ⟨2, "hello", ""⟩ = "hello"
  ∧ strContains "hello" "2" = false := by
  exact ⟨by decide, by decide⟩

/-- Claim C7 amended: after a normal command completion the feedback is
the stderr text when stderr is non-empty and the stdout text otherwise
(the stderr-preferred policy variant); the exit code has no influence on
the feedback and is not included in it. -/
theorem feedback_is_streams_only (ec ec' : Int) (out err : String) :
    build_feedback ⟨ec, out, err⟩ = build_feedback ⟨ec', out, err⟩
  ∧ (err ≠ "" → build_feedback ⟨ec, out, err⟩ = err)
  ∧ (err = "" → build_feedback ⟨ec, out, err⟩ = out) := by
  refine ⟨rfl, ?_, ?_⟩
  · intro h
    simp [build_feedback, h]
  · intro h
    simp [build_feedback, h]

theorem feedback_is_streams_only_witness :
    ("e" : String) ≠ "" ∧ build_feedback ⟨0, "o", "e"⟩ = "e" :=
  ⟨by decide, (feedback_is_streams_only 0 1 "o" "e").2.1 (by decide)⟩

/-- Claim C9 counterexample: for the input line "  hi  " the thread
pushes the raw string "  hi  ", which still carries its leading and
trailing whitespace — the pushed string is not trimmed. -/
theorem pushed_line_not_trimmed :
    input_line_push "  hi  " = some "  hi  "
  ∧ pyStrip "  hi  " ≠ "  hi  " := by
  exact ⟨by decide, by decide⟩

/-- Claim C9 amended: for every line read by the input thread, a push
happens exactly when the line's stripped form is non-empty, and what is
pushed is the raw line itself: never empty (indeed never
whitespace-only), but with its leading and trailing whitespace kept. -/
theorem input_push_raw_line (line : String) :
    (pyStrip line = "" → input_line_push line = none)
  ∧ (pyStrip line ≠ "" → input_line_push line = some line ∧ line ≠ "") := by
  constructor
  · intro h
    simp [input_line_push, h]
  · intro h
    refine ⟨by simp [input_line_push, h], ?_⟩
    intro hl
    subst hl
    exact h rfl

theorem input_push_raw_line_witness :
    pyStrip "  hi  " ≠ "" ∧
    (input_line_push "  hi  " = some "  hi  " ∧ ("  hi  " : String) ≠ "") :=
  ⟨by decide, (input_push_raw_line "  hi  ").2 (by decide)⟩
